import Mathlib

/-!
Verification of the procedural animation core of the hyperlinks.space
repository: the bouncing-sticker collision simulation
(`src/app/components/BouncingStickers.tsx` and the mirror-reflection
variant of the same component) and the SVG path wave distorter
(`src/app/components/WaveSVG.tsx`).

Numbers are embedded as rationals (`ℚ`): the JavaScript source computes
with IEEE doubles, and every claim under study is stated over exact
arithmetic.  `Math.sqrt` (used only by the momentum-exchange collision
policy) is handled by passing the square root as an explicit parameter
`dist` constrained by `dist * dist = distSq` and `0 < dist` in the
theorems, since an exact square root does not exist inside `ℚ`.
`Math.sin` / `Math.cos` (used only by the wave distorter) are handled by
parametrising the distorter over arbitrary functions `sinF cosF : ℚ → ℚ`;
every theorem quantifies over them, and concrete evaluations instantiate
them with values the real sine and cosine take at the arguments actually
used.
-/

/-- `STICKER_SIZE` constant of `BouncingStickers.tsx`. -/
def STICKER_SIZE : ℚ := 44

/-- The `StickerData` record: position, velocity and an opaque sprite
reference never inspected by the physics. -/
structure Sticker where
  x : ℚ
  y : ℚ
  vx : ℚ
  vy : ℚ
  src : String

/-- The move-and-wall-bounce section of `tickStickers` for one sticker:
add velocity to position, then the four sequential `if` clamps
(`x <= 0`, `x >= maxX`, `y <= 0`, `y >= maxY`), each setting the position
to the wall and forcing the velocity sign with `Math.abs`. -/
def moveAndClamp (s : Sticker) (w h : ℚ) : Sticker :=
  let maxX := w - STICKER_SIZE
  let maxY := h - STICKER_SIZE
  let x1 := s.x + s.vx
  let y1 := s.y + s.vy
  let x2 := if x1 ≤ 0 then 0 else x1
  let vx2 := if x1 ≤ 0 then |s.vx| else s.vx
  let x3 := if x2 ≥ maxX then maxX else x2
  let vx3 := if x2 ≥ maxX then -|vx2| else vx2
  let y2 := if y1 ≤ 0 then 0 else y1
  let vy2 := if y1 ≤ 0 then |s.vy| else s.vy
  let y3 := if y2 ≥ maxY then maxY else y2
  let vy3 := if y2 ≥ maxY then -|vy2| else vy2
  { s with x := x3, y := y3, vx := vx3, vy := vy3 }

/-- Squared center-to-center distance (`distSq` in the Policy A pair loop;
both centers add `STICKER_SIZE / 2`, which cancels in the difference). -/
def distSqOf (a b : Sticker) : ℚ :=
  let axc := a.x + STICKER_SIZE / 2
  let ayc := a.y + STICKER_SIZE / 2
  let bxc := b.x + STICKER_SIZE / 2
  let byc := b.y + STICKER_SIZE / 2
  (bxc - axc) * (bxc - axc) + (byc - ayc) * (byc - ayc)

/-- `nx = dx / dist` of the Policy A pair loop, with the square root of
`distSq` supplied as `dist`. -/
def nxOf (a b : Sticker) (dist : ℚ) : ℚ :=
  ((b.x + STICKER_SIZE / 2) - (a.x + STICKER_SIZE / 2)) / dist

/-- `ny = dy / dist` of the Policy A pair loop. -/
def nyOf (a b : Sticker) (dist : ℚ) : ℚ :=
  ((b.y + STICKER_SIZE / 2) - (a.y + STICKER_SIZE / 2)) / dist

/-- `vrel`, the relative velocity projected on the collision normal. -/
def vrelOf (a b : Sticker) (dist : ℚ) : ℚ :=
  (a.vx - b.vx) * nxOf a b dist + (a.vy - b.vy) * nyOf a b dist

/-- One pair resolution of the proximity / momentum-exchange policy
(Policy A, `BouncingStickers.tsx` lines 63-93).  `dist` stands for
`Math.sqrt(distSq)`; theorems constrain it by `dist * dist = distSqOf a b`
and `0 < dist`.  The two `continue` guards (`distSq >= minDist * minDist
|| distSq < 1e-10` and `vrel >= 0`) return the pair unchanged. -/
def resolvePairA (a b : Sticker) (dist : ℚ) : Sticker × Sticker :=
  let distSq := distSqOf a b
  let minDist := STICKER_SIZE
  if distSq ≥ minDist * minDist ∨ distSq < 1e-10 then (a, b)
  else
    let nx := nxOf a b dist
    let ny := nyOf a b dist
    let vrel := (a.vx - b.vx) * nx + (a.vy - b.vy) * ny
    if vrel ≥ 0 then (a, b)
    else
      let overlap := minDist - dist
      ({ a with vx := a.vx - vrel * nx, vy := a.vy - vrel * ny,
                x := a.x - overlap * nx * 0.5, y := a.y - overlap * ny * 0.5 },
       { b with vx := b.vx + vrel * nx, vy := b.vy + vrel * ny,
                x := b.x + overlap * nx * 0.5, y := b.y + overlap * ny * 0.5 })

/-- `reflectVelocity` of the mirror-reflection component: reflect a
velocity across a surface normal, `v' = v - 2 (v·n) n`. -/
def reflectVelocity (vx vy nx ny : ℚ) : ℚ × ℚ :=
  let dot := vx * nx + vy * ny
  (vx - 2 * dot * nx, vy - 2 * dot * ny)

/-- AABB overlap on the x axis:
`Math.min(aRight, bRight) - Math.max(aLeft, bLeft)`. -/
def overlapXOf (a b : Sticker) : ℚ :=
  min (a.x + STICKER_SIZE) (b.x + STICKER_SIZE) - max a.x b.x

/-- AABB overlap on the y axis:
`Math.min(aBottom, bBottom) - Math.max(aTop, bTop)`. -/
def overlapYOf (a b : Sticker) : ℚ :=
  min (a.y + STICKER_SIZE) (b.y + STICKER_SIZE) - max a.y b.y

/-- One pair resolution of the AABB / mirror-reflection policy (Policy B,
the `tickStickers` of the mirror-reflection component): AABB overlap
test, normal from the smaller-overlap axis, mirror reflection of both
velocities (`b` with the negated normal), then positional separation by
half the chosen overlap on each side. -/
def resolvePairB (a b : Sticker) : Sticker × Sticker :=
  let overlapX := overlapXOf a b
  let overlapY := overlapYOf a b
  if overlapX ≤ 0 ∨ overlapY ≤ 0 then (a, b)
  else
    let nno : ℚ × ℚ × ℚ :=
      if overlapX < overlapY then
        (if a.x + STICKER_SIZE / 2 < b.x + STICKER_SIZE / 2 then -1 else 1, 0, overlapX)
      else
        (0, if a.y + STICKER_SIZE / 2 < b.y + STICKER_SIZE / 2 then 1 else -1, overlapY)
    let nx := nno.1
    let ny := nno.2.1
    let overlap := nno.2.2
    let aR := reflectVelocity a.vx a.vy nx ny
    let bR := reflectVelocity b.vx b.vy (-nx) (-ny)
    let half := overlap / 2
    ({ a with vx := aR.1, vy := aR.2, x := a.x - nx * half, y := a.y - ny * half },
     { b with vx := bR.1, vy := bR.2, x := b.x + nx * half, y := b.y + ny * half })

/-- A full tick of the mirror-reflection component's `tickStickers`:
move and wall-clamp every sticker, then a single pass of pair
resolutions in ascending `i < j` order over the array, updating the
array in place. -/
def tickStickersB (stickers : List Sticker) (w h : ℚ) : List Sticker :=
  let moved := stickers.map (fun s => moveAndClamp s w h)
  (List.range moved.length).foldl (fun acc i =>
    (List.range moved.length).foldl (fun acc2 j =>
      if i < j then
        match acc2.get? i, acc2.get? j with
        | some a, some b =>
          let p := resolvePairB a b
          (acc2.set i p.1).set j p.2
        | _, _ => acc2
      else acc2) acc) moved



/-!
Embedding of `applyWaveToPath` (`WaveSVG.tsx`).  The regex
`(-?\d+\.?\d*)/g` is embedded as a left-to-right maximal-munch scanner
over the character list; the match list together with the unmatched
text between matches (the source's `pathData.substring(lastIndex,
num.index)` pieces) is kept as an alternating segmentation: the leading
non-numeric context followed by `(token, following context)` pairs.
`parseFloat` on a matched token and `Number.prototype.toFixed(2)` are
embedded exactly over `ℚ` (`toFixed(2)` rounds to the nearest hundredth,
ties away from zero, per the ECMAScript algorithm).
-/

/-- Longest prefix of decimal digits and the rest (`\d*` / `\d+`). -/
def takeDigits : List Char → List Char × List Char
  | [] => ([], [])
  | c :: cs =>
    if c.isDigit then
      let p := takeDigits cs
      (c :: p.1, p.2)
    else ([], c :: cs)

/-- The optional fractional part `\.?\d*`: a dot (if present) and the
digits after it. -/
def matchFrac : List Char → List Char × List Char
  | '.' :: r =>
    let p := takeDigits r
    ('.' :: p.1, p.2)
  | cs => ([], cs)

/-- Attempt to match `-?\d+\.?\d*` at the head of the list; on success
return the matched token and the remainder. -/
def matchNumAt : List Char → Option (List Char × List Char)
  | [] => none
  | c :: cs =>
    if c = '-' then
      match takeDigits cs with
      | ([], _) => none
      | (d :: ds, r) =>
        let f := matchFrac r
        some ('-' :: d :: ds ++ f.1, f.2)
    else if c.isDigit then
      let p := takeDigits cs
      let f := matchFrac p.2
      some (c :: p.1 ++ f.1, f.2)
    else none

/-- Left-to-right scan for all matches of the number regex, exactly as
the source's `while ((match = numberRegex.exec(pathData)) !== null)`
loop: at each position try to match, otherwise advance one character.
Fuel-indexed for structural recursion; one unit of fuel per character
suffices because a match always consumes at least one character. -/
def scanSegsF : ℕ → List Char → List Char × List (List Char × List Char)
  | 0, cs => (cs, [])
  | _ + 1, [] => ([], [])
  | fuel + 1, c :: cs =>
    match matchNumAt (c :: cs) with
    | some (tok, rest) =>
      let p := scanSegsF fuel rest
      ([], (tok, p.1) :: p.2)
    | none =>
      let p := scanSegsF fuel cs
      (c :: p.1, p.2)

/-- Segmentation of a character list into the leading non-numeric
context and the (numeric token, following context) pairs. -/
def scanSegs (cs : List Char) : List Char × List (List Char × List Char) :=
  scanSegsF cs.length cs

/-- Number of numeric tokens the regex extracts from a string. -/
def countTokens (s : String) : ℕ := (scanSegs s.data).2.length

/-- Numeric value of one digit character. -/
def digitVal (c : Char) : ℕ := c.toNat - '0'.toNat

/-- Decimal value of a digit run. -/
def digitsToNat (l : List Char) : ℕ := l.foldl (fun n c => 10 * n + digitVal c) 0

/-- `parseFloat` on a nonnegative match of the number regex:
integer digits, then an optional dot and fraction digits. -/
def parseTokPos (cs : List Char) : ℚ :=
  let p := takeDigits cs
  let f := matchFrac p.2
  let fracDigits := f.1.drop 1
  (digitsToNat p.1 : ℚ) + (digitsToNat fracDigits : ℚ) / ((10 : ℚ) ^ fracDigits.length)

/-- `parseFloat` on a match of the number regex (optional leading
minus). -/
def parseTok : List Char → ℚ
  | '-' :: cs => -(parseTokPos cs)
  | cs => parseTokPos cs

/-- Two-character decimal rendering of a value in `[0, 99]`. -/
def twoDigitChars (n : ℕ) : List Char :=
  if n < 10 then ['0', Nat.digitChar n] else Nat.toDigits 10 n

/-- `toFixed(2)` for a nonnegative rational: round `100 * q` to the
nearest integer (ties up) and print `⌊n/100⌋ "." (n % 100)`. -/
def toFixed2Pos (q : ℚ) : List Char :=
  let n := (Rat.floor (q * 100 + 1 / 2)).toNat
  Nat.toDigits 10 (n / 100) ++ '.' :: twoDigitChars (n % 100)

/-- `Number.prototype.toFixed(2)`: for a negative value, a minus sign
followed by the rendering of the magnitude (ECMAScript rounds the
magnitude, ties away from zero). -/
def toFixed2 (q : ℚ) : List Char :=
  if q < 0 then '-' :: toFixed2Pos (-q) else toFixed2Pos q

/-- The three-term sinusoidal offset of `applyWaveToPath` for one token:
`index % 2` selects the Y-like (`Math.sin`) or X-like (`Math.cos`)
frequency/amplitude constants, the combined wave is scaled by the
magnitude-dependent `positionFactor`. -/
def waveOffset (sinF cosF : ℚ → ℚ) (time waveIntensity pathIndex value : ℚ)
    (ordinal : ℕ) : ℚ :=
  let wave1 :=
    if ordinal % 2 = 1 then sinF (time * 2.5 + value * 0.012 + pathIndex) * waveIntensity
    else cosF (time * 2.0 + value * 0.012 + pathIndex) * waveIntensity * 0.6
  let wave2 :=
    if ordinal % 2 = 1 then sinF (time * 1.5 + value * 0.018 + pathIndex * 0.5) * waveIntensity * 0.5
    else cosF (time * 1.2 + value * 0.018 + pathIndex * 0.5) * waveIntensity * 0.35
  let wave3 :=
    if ordinal % 2 = 1 then sinF (time * 3.5 + value * 0.006) * waveIntensity * 0.3
    else cosF (time * 3.0 + value * 0.006) * waveIntensity * 0.25
  let combinedWave := wave1 + wave2 + wave3
  let positionFactor := 1 + |value| * 0.0003
  combinedWave * positionFactor

/-- The rebuild loop of `applyWaveToPath` (`matches.forEach` plus the
trailing substring): each token is replaced by
`(value + offset).toFixed(2)`, each context is copied verbatim, and the
ordinal counts up from the given start. -/
def renderSegs (sinF cosF : ℚ → ℚ) (time waveIntensity pathIndex : ℚ) :
    ℕ → List (List Char × List Char) → List Char
  | _, [] => []
  | i, (tok, ctx) :: segs =>
    let v := parseTok tok
    let nv := v + waveOffset sinF cosF time waveIntensity pathIndex v i
    toFixed2 nv ++ ctx ++ renderSegs sinF cosF time waveIntensity pathIndex (i + 1) segs

/-- `applyWaveToPath(pathData, time, waveIntensity = 1, pathIndex = 0)`:
extract all numeric tokens; if none, return `pathData` unchanged;
otherwise replace every token by its distorted two-decimal rendering,
keeping all non-numeric text in place. -/
def applyWaveToPath (sinF cosF : ℚ → ℚ) (pathData : String) (time : ℚ)
    (waveIntensity : ℚ := 1) (pathIndex : ℚ := 0) : String :=
  let sc := scanSegs pathData.data
  if sc.2.isEmpty then pathData
  else String.mk (sc.1 ++ renderSegs sinF cosF time waveIntensity pathIndex 0 sc.2)






/-!
Embedding of the navigation-target handling of the `BouncingStickers`
component: `linksList = links.length >= 5 ? links.slice(0, 5) :
[...links, "/"]`, and the click handler `const href =
linksList[Math.floor(Math.random() * linksList.length)] ?? "/"` followed
by `window.open(href, "_blank", ...)` when `href.startsWith("http")`
and `window.location.href = href` otherwise.  `Math.random()` is
embedded as an arbitrary rational `r` with `0 ≤ r < 1` in the
theorems. -/

/-- The `linksList` computation of the component body. -/
def linksListOf (links : List String) : List String :=
  if links.length ≥ 5 then links.take 5 else links ++ ["/"]

/-- Result of dispatching a navigation: a new browsing context
(`window.open`) or an in-place navigation (`window.location.href`). -/
inductive NavAction where
  | newContext : String → NavAction
  | inPlace : String → NavAction
deriving DecidableEq

/-- The target picked by the click handler for random draw `r`:
`linksList[Math.floor(r * linksList.length)] ?? "/"`. -/
def clickTarget (links : List String) (r : ℚ) : String :=
  let l := linksListOf links
  (l.get? (⌊r * (l.length : ℚ)⌋).toNat).getD "/"

/-- The click handler's dispatch on the chosen target. -/
def clickNav (links : List String) (r : ℚ) : NavAction :=
  let href := clickTarget links r
  if href.startsWith "http" then NavAction.newContext href else NavAction.inPlace href




/-!
Claim theorems: bouncing-sticker physics.
-/

/-- C1 counterexample.  The claim states that after a full tick every
entity satisfies `0 ≤ x ≤ bound_w - size`.  With two overlapping
stickers at `(0,0)` and `(10,0)` (velocities zero) in a 500×500
container, the mirror-reflection tick's collision pass — which runs
after the wall clamp — moves the second sticker to `x = -7 < 0`. -/
theorem tick_boundary_counterexample :
    (tickStickersB [⟨0, 0, 0, 0, "a"⟩, ⟨10, 0, 0, 0, "b"⟩] 500 500).map Sticker.x
      = [17, -7] ∧ ¬ (0 ≤ (-7 : ℚ)) := by
  exact ⟨by with_unfolding_all rfl, by norm_num⟩

/-- C1 (amended): the boundary invariant `0 ≤ x ≤ w - size`,
`0 ≤ y ≤ h - size` holds after the move-and-clamp phase of a tick
whenever each container dimension is at least the sticker size; the
subsequent collision pass is not covered (and can violate it). -/
theorem moveAndClamp_bounds (s : Sticker) (w h : ℚ)
    (hw : STICKER_SIZE ≤ w) (hh : STICKER_SIZE ≤ h) :
    0 ≤ (moveAndClamp s w h).x ∧ (moveAndClamp s w h).x ≤ w - STICKER_SIZE ∧
    0 ≤ (moveAndClamp s w h).y ∧ (moveAndClamp s w h).y ≤ h - STICKER_SIZE := by
  simp only [moveAndClamp]
  refine ⟨?_, ?_, ?_, ?_⟩ <;> split_ifs <;> linarith

/-- Witness for `moveAndClamp_bounds` at a concrete sticker and
container. -/
theorem moveAndClamp_bounds_witness :
    STICKER_SIZE ≤ (500 : ℚ) ∧
    (0 ≤ (moveAndClamp ⟨1, 2, 3, 4, "w"⟩ 500 500).x ∧
     (moveAndClamp ⟨1, 2, 3, 4, "w"⟩ 500 500).x ≤ 500 - STICKER_SIZE ∧
     0 ≤ (moveAndClamp ⟨1, 2, 3, 4, "w"⟩ 500 500).y ∧
     (moveAndClamp ⟨1, 2, 3, 4, "w"⟩ 500 500).y ≤ 500 - STICKER_SIZE) :=
  ⟨by norm_num [STICKER_SIZE],
   moveAndClamp_bounds ⟨1, 2, 3, 4, "w"⟩ 500 500 (by norm_num [STICKER_SIZE])
     (by norm_num [STICKER_SIZE])⟩

/-- C4 counterexample.  The claim states that with a container dimension
smaller than the entity size the clamp floors the range to 0 and the
position is never negative.  With `w = h = 30 < 44` the clamp in
`tickStickers` sets the position to `w - STICKER_SIZE = -14 < 0`
(only `initSticker` floors the range with `Math.max(0, ...)`). -/
theorem clamp_negative_bounds_counterexample :
    (moveAndClamp ⟨5, 5, 0, 0, "s"⟩ 30 30).x = -14 ∧ (-14 : ℚ) < 0 := by
  exact ⟨by with_unfolding_all rfl, by norm_num⟩

/-- C4 (amended): when a container dimension is smaller than the sticker
size, the per-tick clamp does not floor the range: it always ends the
axis at the (negative) wall value `bound - STICKER_SIZE`. -/
theorem moveAndClamp_degenerate (s : Sticker) (w h : ℚ)
    (hw : w - STICKER_SIZE < 0) (hh : h - STICKER_SIZE < 0) :
    (moveAndClamp s w h).x = w - STICKER_SIZE ∧
    (moveAndClamp s w h).y = h - STICKER_SIZE := by
  simp only [moveAndClamp]
  refine ⟨?_, ?_⟩ <;> split_ifs <;> first | rfl | linarith

/-- Witness for `moveAndClamp_degenerate`. -/
theorem moveAndClamp_degenerate_witness :
    (30 : ℚ) - STICKER_SIZE < 0 ∧
    ((moveAndClamp ⟨5, 5, 0, 0, "s"⟩ 30 30).x = 30 - STICKER_SIZE ∧
     (moveAndClamp ⟨5, 5, 0, 0, "s"⟩ 30 30).y = 30 - STICKER_SIZE) :=
  ⟨by norm_num [STICKER_SIZE],
   moveAndClamp_degenerate ⟨5, 5, 0, 0, "s"⟩ 30 30 (by norm_num [STICKER_SIZE])
     (by norm_num [STICKER_SIZE])⟩

/-- C5: Policy A conserves the sum of the two normal velocity components
exactly (hence within any floating epsilon): for a colliding
(`distSq < minDist²`), non-degenerate (`¬ distSq < 1e-10`), approaching
(`vrel < 0`) pair, the sum of the projections of the two velocities on
the collision normal is unchanged by the resolution. -/
theorem policyA_momentum_conserved (a b : Sticker) (dist : ℚ)
    (_hd : dist * dist = distSqOf a b) (_hdist : 0 < dist)
    (hclose : distSqOf a b < STICKER_SIZE * STICKER_SIZE)
    (hdeg : ¬ distSqOf a b < 1e-10)
    (happ : vrelOf a b dist < 0) :
    ((resolvePairA a b dist).1.vx * nxOf a b dist
        + (resolvePairA a b dist).1.vy * nyOf a b dist)
      + ((resolvePairA a b dist).2.vx * nxOf a b dist
        + (resolvePairA a b dist).2.vy * nyOf a b dist)
      = (a.vx * nxOf a b dist + a.vy * nyOf a b dist)
      + (b.vx * nxOf a b dist + b.vy * nyOf a b dist) := by
  have hg1 : ¬ (distSqOf a b ≥ STICKER_SIZE * STICKER_SIZE ∨ distSqOf a b < 1e-10) := by
    rintro (h | h)
    · exact absurd h (not_le.mpr hclose)
    · exact hdeg h
  have hg2 : ¬ ((a.vx - b.vx) * nxOf a b dist + (a.vy - b.vy) * nyOf a b dist ≥ 0) := by
    rw [vrelOf] at happ
    exact not_le.mpr happ
  simp only [resolvePairA, if_neg hg1, if_neg hg2]
  ring

/-- Witness for `policyA_momentum_conserved`: stickers whose centers are
3 and 4 apart (`distSq = 25`, `dist = 5 < 44`), with `a` moving toward
`b`. -/
theorem policyA_momentum_conserved_witness :
    (5 : ℚ) * 5 = distSqOf ⟨0, 0, -1, 0, "a"⟩ ⟨3, 4, 0, 0, "b"⟩ ∧
    vrelOf ⟨0, 0, -1, 0, "a"⟩ ⟨3, 4, 0, 0, "b"⟩ 5 < 0 ∧
    (((resolvePairA ⟨0, 0, -1, 0, "a"⟩ ⟨3, 4, 0, 0, "b"⟩ 5).1.vx
          * nxOf ⟨0, 0, -1, 0, "a"⟩ ⟨3, 4, 0, 0, "b"⟩ 5
        + (resolvePairA ⟨0, 0, -1, 0, "a"⟩ ⟨3, 4, 0, 0, "b"⟩ 5).1.vy
          * nyOf ⟨0, 0, -1, 0, "a"⟩ ⟨3, 4, 0, 0, "b"⟩ 5)
      + ((resolvePairA ⟨0, 0, -1, 0, "a"⟩ ⟨3, 4, 0, 0, "b"⟩ 5).2.vx
          * nxOf ⟨0, 0, -1, 0, "a"⟩ ⟨3, 4, 0, 0, "b"⟩ 5
        + (resolvePairA ⟨0, 0, -1, 0, "a"⟩ ⟨3, 4, 0, 0, "b"⟩ 5).2.vy
          * nyOf ⟨0, 0, -1, 0, "a"⟩ ⟨3, 4, 0, 0, "b"⟩ 5)
      = ((-1 : ℚ) * nxOf ⟨0, 0, -1, 0, "a"⟩ ⟨3, 4, 0, 0, "b"⟩ 5
          + 0 * nyOf ⟨0, 0, -1, 0, "a"⟩ ⟨3, 4, 0, 0, "b"⟩ 5)
      + ((0 : ℚ) * nxOf ⟨0, 0, -1, 0, "a"⟩ ⟨3, 4, 0, 0, "b"⟩ 5
          + 0 * nyOf ⟨0, 0, -1, 0, "a"⟩ ⟨3, 4, 0, 0, "b"⟩ 5)) :=
  ⟨by with_unfolding_all decide, by with_unfolding_all decide,
   policyA_momentum_conserved ⟨0, 0, -1, 0, "a"⟩ ⟨3, 4, 0, 0, "b"⟩ 5
     (by with_unfolding_all decide) (by with_unfolding_all decide)
     (by with_unfolding_all decide) (by with_unfolding_all decide)
     (by with_unfolding_all decide)⟩

/-- Algebra of the equal-mass exchange `v_a' = v_a - vrel·n`,
`v_b' = v_b + vrel·n` for a unit normal: normal components swap,
tangential components are unchanged, and the summed squared speed is
conserved. -/
theorem exchangeAux (avx avy bvx bvy nx ny vrel : ℚ)
    (hn : nx * nx + ny * ny = 1)
    (hv : vrel = (avx - bvx) * nx + (avy - bvy) * ny) :
    ((avx - vrel * nx) * nx + (avy - vrel * ny) * ny = bvx * nx + bvy * ny)
    ∧ ((bvx + vrel * nx) * nx + (bvy + vrel * ny) * ny = avx * nx + avy * ny)
    ∧ ((avx - vrel * nx) * (-ny) + (avy - vrel * ny) * nx = avx * (-ny) + avy * nx)
    ∧ ((bvx + vrel * nx) * (-ny) + (bvy + vrel * ny) * nx = bvx * (-ny) + bvy * nx)
    ∧ ((avx - vrel * nx) ^ 2 + (avy - vrel * ny) ^ 2
        + (bvx + vrel * nx) ^ 2 + (bvy + vrel * ny) ^ 2
        = avx ^ 2 + avy ^ 2 + bvx ^ 2 + bvy ^ 2) := by
  refine ⟨?_, ?_, by ring, by ring, ?_⟩
  · linear_combination (-vrel) * hn - hv
  · linear_combination vrel * hn + hv
  · linear_combination (2 * vrel ^ 2) * hn + 2 * vrel * hv

/-- C10: the Policy A velocity update swaps the two normal velocity
components, leaves both tangential components unchanged, and conserves
the summed squared speed (equal-mass kinetic energy). -/
theorem policyA_normal_swap_energy (a b : Sticker) (dist : ℚ)
    (hd : dist * dist = distSqOf a b) (hdist : 0 < dist)
    (hclose : distSqOf a b < STICKER_SIZE * STICKER_SIZE)
    (hdeg : ¬ distSqOf a b < 1e-10)
    (happ : vrelOf a b dist < 0) :
    ((resolvePairA a b dist).1.vx * nxOf a b dist
        + (resolvePairA a b dist).1.vy * nyOf a b dist
        = b.vx * nxOf a b dist + b.vy * nyOf a b dist)
    ∧ ((resolvePairA a b dist).2.vx * nxOf a b dist
        + (resolvePairA a b dist).2.vy * nyOf a b dist
        = a.vx * nxOf a b dist + a.vy * nyOf a b dist)
    ∧ ((resolvePairA a b dist).1.vx * (-(nyOf a b dist))
        + (resolvePairA a b dist).1.vy * nxOf a b dist
        = a.vx * (-(nyOf a b dist)) + a.vy * nxOf a b dist)
    ∧ ((resolvePairA a b dist).2.vx * (-(nyOf a b dist))
        + (resolvePairA a b dist).2.vy * nxOf a b dist
        = b.vx * (-(nyOf a b dist)) + b.vy * nxOf a b dist)
    ∧ ((resolvePairA a b dist).1.vx ^ 2 + (resolvePairA a b dist).1.vy ^ 2
        + (resolvePairA a b dist).2.vx ^ 2 + (resolvePairA a b dist).2.vy ^ 2
        = a.vx ^ 2 + a.vy ^ 2 + b.vx ^ 2 + b.vy ^ 2) := by
  have hdz : dist ≠ 0 := ne_of_gt hdist
  have hn : nxOf a b dist * nxOf a b dist + nyOf a b dist * nyOf a b dist = 1 := by
    have hd' : dist * dist =
        ((b.x + STICKER_SIZE / 2) - (a.x + STICKER_SIZE / 2))
          * ((b.x + STICKER_SIZE / 2) - (a.x + STICKER_SIZE / 2))
        + ((b.y + STICKER_SIZE / 2) - (a.y + STICKER_SIZE / 2))
          * ((b.y + STICKER_SIZE / 2) - (a.y + STICKER_SIZE / 2)) := by
      simpa [distSqOf] using hd
    rw [nxOf, nyOf, div_mul_div_comm, div_mul_div_comm, div_add_div_same, ← hd']
    exact div_self (mul_ne_zero hdz hdz)
  have hg1 : ¬ (distSqOf a b ≥ STICKER_SIZE * STICKER_SIZE ∨ distSqOf a b < 1e-10) := by
    rintro (h | h)
    · exact absurd h (not_le.mpr hclose)
    · exact hdeg h
  have hg2 : ¬ ((a.vx - b.vx) * nxOf a b dist + (a.vy - b.vy) * nyOf a b dist ≥ 0) := by
    rw [vrelOf] at happ
    exact not_le.mpr happ
  simp only [resolvePairA, if_neg hg1, if_neg hg2]
  exact exchangeAux a.vx a.vy b.vx b.vy (nxOf a b dist) (nyOf a b dist)
    ((a.vx - b.vx) * nxOf a b dist + (a.vy - b.vy) * nyOf a b dist) hn rfl

/-- Witness for `policyA_normal_swap_energy` at the same concrete
colliding pair: the summed squared speed is conserved. -/
theorem policyA_normal_swap_energy_witness :
    (5 : ℚ) * 5 = distSqOf ⟨0, 0, -1, 0, "a"⟩ ⟨3, 4, 0, 0, "b"⟩ ∧
    vrelOf ⟨0, 0, -1, 0, "a"⟩ ⟨3, 4, 0, 0, "b"⟩ 5 < 0 ∧
    ((resolvePairA ⟨0, 0, -1, 0, "a"⟩ ⟨3, 4, 0, 0, "b"⟩ 5).1.vx ^ 2
      + (resolvePairA ⟨0, 0, -1, 0, "a"⟩ ⟨3, 4, 0, 0, "b"⟩ 5).1.vy ^ 2
      + (resolvePairA ⟨0, 0, -1, 0, "a"⟩ ⟨3, 4, 0, 0, "b"⟩ 5).2.vx ^ 2
      + (resolvePairA ⟨0, 0, -1, 0, "a"⟩ ⟨3, 4, 0, 0, "b"⟩ 5).2.vy ^ 2
      = (-1 : ℚ) ^ 2 + (0 : ℚ) ^ 2 + (0 : ℚ) ^ 2 + (0 : ℚ) ^ 2) :=
  ⟨by with_unfolding_all decide, by with_unfolding_all decide,
   (policyA_normal_swap_energy ⟨0, 0, -1, 0, "a"⟩ ⟨3, 4, 0, 0, "b"⟩ 5
     (by with_unfolding_all decide) (by with_unfolding_all decide)
     (by with_unfolding_all decide) (by with_unfolding_all decide)
     (by with_unfolding_all decide)).2.2.2.2⟩

/-- C2 evaluation at a failing input.  Two stickers at `(0,0)` and
`(10,0)` overlap by 34 on x and 44 on y, so the X axis is chosen; the
code's own comment promises "Separate so they never overlay — push
apart along normal by overlap amount", but the X-branch separation sign
moves the boxes toward each other: after the single resolution pass the
pair still overlaps by 20 on x and 44 on y (positive on both axes), far
beyond any rounding epsilon. -/
theorem policyB_residual_overlap :
    overlapXOf ⟨0, 0, 0, 0, "a"⟩ ⟨10, 0, 0, 0, "b"⟩ = 34 ∧
    overlapYOf ⟨0, 0, 0, 0, "a"⟩ ⟨10, 0, 0, 0, "b"⟩ = 44 ∧
    overlapXOf (resolvePairB ⟨0, 0, 0, 0, "a"⟩ ⟨10, 0, 0, 0, "b"⟩).1
        (resolvePairB ⟨0, 0, 0, 0, "a"⟩ ⟨10, 0, 0, 0, "b"⟩).2 = 20 ∧
    overlapYOf (resolvePairB ⟨0, 0, 0, 0, "a"⟩ ⟨10, 0, 0, 0, "b"⟩).1
        (resolvePairB ⟨0, 0, 0, 0, "a"⟩ ⟨10, 0, 0, 0, "b"⟩).2 = 44 := by
  refine ⟨?_, ?_, ?_, ?_⟩ <;> with_unfolding_all rfl

/-- C3 counterexample.  The claim says equal overlaps tie-break to the
X axis, which would leave every y velocity unchanged (the normal would
be `(±1, 0)`).  At the tie `overlapX = overlapY = 34` the code takes
the `else` (Y-axis) branch and flips `a`'s y velocity from `2` to
`-2`. -/
theorem policyB_tie_axis_counterexample :
    overlapXOf ⟨0, 0, 1, 2, "a"⟩ ⟨10, 10, 0, 0, "b"⟩
      = overlapYOf ⟨0, 0, 1, 2, "a"⟩ ⟨10, 10, 0, 0, "b"⟩ ∧
    (resolvePairB ⟨0, 0, 1, 2, "a"⟩ ⟨10, 10, 0, 0, "b"⟩).1.vy = -2 ∧
    ((-2 : ℚ) ≠ 2) := by
  refine ⟨by with_unfolding_all rfl, by with_unfolding_all rfl, by norm_num⟩

/-- C3 (amended): for a colliding pair under Policy B the separation
axis is X exactly when the X overlap is strictly smaller (a tie goes to
the Y axis); when the smaller-center box is `a`, the stored unit normal
is `(-1, 0)` on the X axis (pointing from the larger-center box toward
the smaller, opposite to the claim) and `(0, 1)` on the Y axis
(pointing from the smaller-center box toward the larger).  Each
velocity is reflected with the specular formula `v' = v - 2 (v·n) n`
(`reflectVelocity`), entity `b` with the negated normal — which is the
same reflection, since the formula is invariant under negating the
normal.  Positions separate by half the chosen overlap on each side
along the stored normal (so on the X axis `a` moves toward `b`). -/
theorem policyB_axis_normal_reflection (a b : Sticker)
    (hX : 0 < overlapXOf a b) (hY : 0 < overlapYOf a b) :
    (∀ vx vy nx ny : ℚ, reflectVelocity vx vy (-nx) (-ny) = reflectVelocity vx vy nx ny)
    ∧ (overlapXOf a b < overlapYOf a b →
        a.x + STICKER_SIZE / 2 < b.x + STICKER_SIZE / 2 →
          ((resolvePairB a b).1.vx, (resolvePairB a b).1.vy)
              = reflectVelocity a.vx a.vy (-1) 0
          ∧ ((resolvePairB a b).2.vx, (resolvePairB a b).2.vy)
              = reflectVelocity b.vx b.vy (-1) 0
          ∧ (resolvePairB a b).1.x = a.x + overlapXOf a b / 2
          ∧ (resolvePairB a b).2.x = b.x - overlapXOf a b / 2
          ∧ (resolvePairB a b).1.y = a.y ∧ (resolvePairB a b).2.y = b.y)
    ∧ (¬ overlapXOf a b < overlapYOf a b →
        a.y + STICKER_SIZE / 2 < b.y + STICKER_SIZE / 2 →
          ((resolvePairB a b).1.vx, (resolvePairB a b).1.vy)
              = reflectVelocity a.vx a.vy 0 1
          ∧ ((resolvePairB a b).2.vx, (resolvePairB a b).2.vy)
              = reflectVelocity b.vx b.vy 0 1
          ∧ (resolvePairB a b).1.y = a.y - overlapYOf a b / 2
          ∧ (resolvePairB a b).2.y = b.y + overlapYOf a b / 2
          ∧ (resolvePairB a b).1.x = a.x ∧ (resolvePairB a b).2.x = b.x) := by
  have hguard : ¬ (overlapXOf a b ≤ 0 ∨ overlapYOf a b ≤ 0) := by
    rintro (h | h)
    · exact absurd h (not_le.mpr hX)
    · exact absurd h (not_le.mpr hY)
  refine ⟨fun vx vy nx ny => by simp only [reflectVelocity]; ring_nf, ?_, ?_⟩
  · intro hlt hc
    simp only [resolvePairB, if_neg hguard, if_pos hlt, if_pos hc, reflectVelocity]
    refine ⟨by ring_nf, by ring_nf, by ring, by ring, by ring, by ring⟩
  · intro hge hc
    simp only [resolvePairB, if_neg hguard, if_neg hge, if_pos hc, reflectVelocity]
    refine ⟨by ring_nf, by ring_nf, by ring, by ring, by ring, by ring⟩

/-- Witness for `policyB_axis_normal_reflection`: an X-dominant
collision with `a`'s center to the left. -/
theorem policyB_axis_normal_reflection_witness :
    (0 : ℚ) < overlapXOf ⟨0, 0, 1, 2, "a"⟩ ⟨10, 0, 3, 4, "b"⟩ ∧
    (0 : ℚ) < overlapYOf ⟨0, 0, 1, 2, "a"⟩ ⟨10, 0, 3, 4, "b"⟩ ∧
    (((resolvePairB ⟨0, 0, 1, 2, "a"⟩ ⟨10, 0, 3, 4, "b"⟩).1.vx,
      (resolvePairB ⟨0, 0, 1, 2, "a"⟩ ⟨10, 0, 3, 4, "b"⟩).1.vy)
        = reflectVelocity 1 2 (-1) 0
      ∧ ((resolvePairB ⟨0, 0, 1, 2, "a"⟩ ⟨10, 0, 3, 4, "b"⟩).2.vx,
        (resolvePairB ⟨0, 0, 1, 2, "a"⟩ ⟨10, 0, 3, 4, "b"⟩).2.vy)
          = reflectVelocity 3 4 (-1) 0
      ∧ (resolvePairB ⟨0, 0, 1, 2, "a"⟩ ⟨10, 0, 3, 4, "b"⟩).1.x
          = 0 + overlapXOf ⟨0, 0, 1, 2, "a"⟩ ⟨10, 0, 3, 4, "b"⟩ / 2
      ∧ (resolvePairB ⟨0, 0, 1, 2, "a"⟩ ⟨10, 0, 3, 4, "b"⟩).2.x
          = 10 - overlapXOf ⟨0, 0, 1, 2, "a"⟩ ⟨10, 0, 3, 4, "b"⟩ / 2
      ∧ (resolvePairB ⟨0, 0, 1, 2, "a"⟩ ⟨10, 0, 3, 4, "b"⟩).1.y = 0
      ∧ (resolvePairB ⟨0, 0, 1, 2, "a"⟩ ⟨10, 0, 3, 4, "b"⟩).2.y = 0) :=
  ⟨by with_unfolding_all decide, by with_unfolding_all decide,
   (policyB_axis_normal_reflection ⟨0, 0, 1, 2, "a"⟩ ⟨10, 0, 3, 4, "b"⟩
     (by with_unfolding_all decide) (by with_unfolding_all decide)).2.1
     (by with_unfolding_all decide) (by with_unfolding_all decide)⟩

/-!
Claim theorems: wave distorter.
-/

/-- C9: when the number regex finds no token in the input, the distorter
returns the input unchanged, for every time, intensity and path index
(the source's `if (matches.length === 0) return pathData`). -/
theorem applyWave_no_tokens (sinF cosF : ℚ → ℚ) (s : String)
    (time waveIntensity pathIndex : ℚ)
    (h : (scanSegs s.data).2 = []) :
    applyWaveToPath sinF cosF s time waveIntensity pathIndex = s := by
  simp [applyWaveToPath, h]

/-- Witness for `applyWave_no_tokens` on the claim's own example. -/
theorem applyWave_no_tokens_witness :
    (scanSegs ("no numbers here").data).2 = [] ∧
    applyWaveToPath (fun _ => 0) (fun _ => 0) "no numbers here" 1 2 3
      = "no numbers here" :=
  ⟨by with_unfolding_all rfl,
   applyWave_no_tokens (fun _ => 0) (fun _ => 0) "no numbers here" 1 2 3
     (by with_unfolding_all rfl)⟩

/-- The rebuild loop with every offset dropped: each token replaced by
its own value at two decimals. -/
def zeroRenderSegs : List (List Char × List Char) → List Char
  | [] => []
  | (tok, ctx) :: segs => toFixed2 (parseTok tok) ++ ctx ++ zeroRenderSegs segs

/-- Following the spec's words for the zero-intensity contract: the
output whose numeric values equal the baseline values modulo fixed
two-decimal formatting, with all non-numeric text unchanged. -/
def specZeroRender (s : String) : String :=
  let sc := scanSegs s.data
  if sc.2.isEmpty then s
  else String.mk (sc.1 ++ zeroRenderSegs sc.2)

/-- At `waveIntensity = 0` every sinusoidal term is multiplied by zero,
so the offset collapses to 0 regardless of the trigonometric values. -/
theorem waveOffset_zero (sinF cosF : ℚ → ℚ) (time pathIndex value : ℚ)
    (ordinal : ℕ) :
    waveOffset sinF cosF time 0 pathIndex value ordinal = 0 := by
  simp only [waveOffset]
  split_ifs <;> ring

/-- The rebuild loop at zero intensity renders each token's own value. -/
theorem renderSegs_zero (sinF cosF : ℚ → ℚ) (time pathIndex : ℚ) :
    ∀ (i : ℕ) (segs : List (List Char × List Char)),
      renderSegs sinF cosF time 0 pathIndex i segs = zeroRenderSegs segs := by
  intro i segs
  induction segs generalizing i with
  | nil => rfl
  | cons tc segs ih =>
    obtain ⟨tok, ctx⟩ := tc
    simp only [renderSegs, zeroRenderSegs, waveOffset_zero, add_zero, ih]

/-- C7: at zero intensity the distorted output is exactly the baseline
with each numeric token replaced by its own value at two decimals, for
every time and path index; in particular "M0,0 L10,10" renders to
"M0.00,0.00 L10.00,10.00" (numeric values 0.00, 0.00, 10.00, 10.00). -/
theorem applyWave_zero_intensity :
    (∀ (sinF cosF : ℚ → ℚ) (s : String) (time pathIndex : ℚ),
        applyWaveToPath sinF cosF s time 0 pathIndex = specZeroRender s)
    ∧ (∀ (sinF cosF : ℚ → ℚ) (time pathIndex : ℚ),
        applyWaveToPath sinF cosF "M0,0 L10,10" time 0 pathIndex
          = "M0.00,0.00 L10.00,10.00") := by
  have h1 : ∀ (sinF cosF : ℚ → ℚ) (s : String) (time pathIndex : ℚ),
      applyWaveToPath sinF cosF s time 0 pathIndex = specZeroRender s := by
    intro sinF cosF s time pathIndex
    simp only [applyWaveToPath, specZeroRender, renderSegs_zero]
  refine ⟨h1, fun sinF cosF time pathIndex => ?_⟩
  rw [h1]
  with_unfolding_all rfl

/-- C6 counterexample.  Baseline "0-0-0" has three numeric tokens with
empty separation between them.  At `time = 0`, `pathIndex = 0` the
trigonometric arguments are all 0, so instantiating the trigonometric
functions by their real values at 0 (`sin 0 = 0`, `cos 0 = 1`) is
faithful; with intensity `5/6` the X-like tokens receive offset
`(0.6 + 0.35 + 0.25) · 5/6 = 1`, the output is "1.000.001.00", and
re-extraction finds only 2 tokens instead of 3. -/
theorem wave_token_count_counterexample :
    countTokens "0-0-0" = 3 ∧
    applyWaveToPath (fun _ => 0) (fun _ => 1) "0-0-0" 0 (5/6) 0 = "1.000.001.00" ∧
    countTokens (applyWaveToPath (fun _ => 0) (fun _ => 1) "0-0-0" 0 (5/6) 0) = 2 ∧
    (2 : ℕ) ≠ 3 := by
  refine ⟨by with_unfolding_all rfl, by with_unfolding_all rfl,
    by with_unfolding_all rfl, by norm_num⟩

/-- The leading context the scanner produces is an in-order selection of
the scanned characters. -/
theorem scanSegsF_ctx_sublist :
    ∀ (fuel : ℕ) (cs : List Char), ((scanSegsF fuel cs).1).Sublist cs := by
  intro fuel
  induction fuel with
  | zero => intro cs; exact List.Sublist.refl cs
  | succ f ih =>
    intro cs
    cases cs with
    | nil => simp [scanSegsF]
    | cons c cs =>
      cases h : matchNumAt (c :: cs) with
      | none => simpa [scanSegsF, h] using (ih cs).cons₂ c
      | some tr =>
        obtain ⟨tok, rest⟩ := tr
        simp [scanSegsF, h]

/-- The non-numeric contexts are an in-order sublist of the rebuilt
output. -/
theorem renderSegs_ctx_sublist (sinF cosF : ℚ → ℚ)
    (time waveIntensity pathIndex : ℚ) :
    ∀ (i : ℕ) (segs : List (List Char × List Char)),
      ((segs.map Prod.snd).flatten).Sublist
        (renderSegs sinF cosF time waveIntensity pathIndex i segs) := by
  intro i segs
  induction segs generalizing i with
  | nil => simp [renderSegs]
  | cons tc segs ih =>
    obtain ⟨tok, ctx⟩ := tc
    simp only [List.map_cons, List.flatten_cons, renderSegs]
    rw [List.append_assoc]
    exact ((ih (i + 1)).append_left ctx).trans (List.sublist_append_right _ _)

/-- All characters of the baseline outside numeric tokens, in order. -/
def nonNumericChars (s : String) : List Char :=
  (scanSegs s.data).1 ++ ((scanSegs s.data).2.map Prod.snd).flatten

/-- C6 (amended): every non-numeric character of the baseline appears
unchanged and in the same relative order in the distorted output — the
scanner's contexts are emitted verbatim around the formatted numbers.
The token-count half of the original claim fails for adjacent tokens
(see the counterexample): a distorted value can lose its sign and merge
with neighbouring digits under re-extraction. -/
theorem wave_nonnumeric_sublist (sinF cosF : ℚ → ℚ) (s : String)
    (time waveIntensity pathIndex : ℚ) :
    (nonNumericChars s).Sublist
      (applyWaveToPath sinF cosF s time waveIntensity pathIndex).data := by
  rw [nonNumericChars, applyWaveToPath]
  by_cases h : (scanSegs s.data).2.isEmpty
  · have h2 : (scanSegs s.data).2 = [] := by
      cases h3 : (scanSegs s.data).2 with
      | nil => rfl
      | cons a l => rw [h3] at h; simp [List.isEmpty] at h
    simp only [h, if_true, h2, List.map_nil, List.flatten_nil, List.append_nil]
    exact scanSegsF_ctx_sublist _ _
  · simp only [h, Bool.false_eq_true, if_false]
    show ((scanSegs s.data).1 ++ ((scanSegs s.data).2.map Prod.snd).flatten).Sublist
      ((scanSegs s.data).1 ++
        renderSegs sinF cosF time waveIntensity pathIndex 0 (scanSegs s.data).2)
    exact (renderSegs_ctx_sublist sinF cosF time waveIntensity pathIndex 0
      (scanSegs s.data).2).append_left _

/-!
Claim theorems: navigation targets.
-/

/-- C8 counterexample.  The claim says fewer than 5 supplied targets are
padded "so selection draws from 5 entries"; the code appends a single
default, so one supplied target yields a 2-element list, not 5. -/
theorem linksList_pad_counterexample :
    (linksListOf ["a"]).length = 2 ∧ (2 : ℕ) ≠ 5 := by
  exact ⟨by with_unfolding_all rfl, by norm_num⟩

/-- C8 (amended): fewer than 5 supplied targets are padded with the
single default target "/" (so selection draws from `n + 1` entries, not
5), and 5 or more supplied targets are truncated to the first 5; on
activation the index `⌊r · len⌋` of a uniform draw `0 ≤ r < 1` always
lands inside the list; a chosen target starting with "http" opens in a
new browsing context and any other target navigates in place. -/
theorem linksList_pad_and_dispatch (links : List String) (r : ℚ)
    (h0 : 0 ≤ r) (h1 : r < 1) :
    (links.length < 5 → linksListOf links = links ++ ["/"])
    ∧ (5 ≤ links.length → linksListOf links = links.take 5)
    ∧ (⌊r * ((linksListOf links).length : ℚ)⌋).toNat < (linksListOf links).length
    ∧ ((clickTarget links r).startsWith "http" = true →
        clickNav links r = NavAction.newContext (clickTarget links r))
    ∧ ((clickTarget links r).startsWith "http" = false →
        clickNav links r = NavAction.inPlace (clickTarget links r)) := by
  have hlen : 0 < (linksListOf links).length := by
    rw [linksListOf]
    split_ifs with h
    · rw [List.length_take]; omega
    · simp
  refine ⟨fun h => ?_, fun h => ?_, ?_, fun h => ?_, fun h => ?_⟩
  · rw [linksListOf, if_neg (by omega)]
  · rw [linksListOf, if_pos h]
  · have hub : r * ((linksListOf links).length : ℚ) < ((linksListOf links).length : ℚ) := by
      calc r * ((linksListOf links).length : ℚ)
          < 1 * ((linksListOf links).length : ℚ) := by
            exact mul_lt_mul_of_pos_right h1 (by exact_mod_cast hlen)
        _ = ((linksListOf links).length : ℚ) := one_mul _
    have hfl : ⌊r * ((linksListOf links).length : ℚ)⌋ < ((linksListOf links).length : ℤ) := by
      apply Int.floor_lt.mpr
      push_cast
      exact hub
    have hnn : 0 ≤ ⌊r * ((linksListOf links).length : ℚ)⌋ := by
      apply Int.floor_nonneg.mpr
      positivity
    omega
  · simp [clickNav, h]
  · simp [clickNav, h]

/-- Witness for `linksList_pad_and_dispatch`: a single supplied target
is padded with "/". -/
theorem linksList_pad_and_dispatch_witness :
    (0 : ℚ) ≤ 1/2 ∧ (1/2 : ℚ) < 1 ∧ linksListOf ["a"] = ["a"] ++ ["/"] :=
  ⟨by norm_num, by norm_num,
   (linksList_pad_and_dispatch ["a"] (1/2) (by norm_num) (by norm_num)).1 (by decide)⟩
